import Mathlib

/-!
# Shallow embedding of the ClickUp task-analysis engine

Embeds the core of `src/user_task_analyzer.py` and `src/main.py`: the task
data model, the status filters, the pagination loops of
`UserTaskAnalyzer.get_user_tasks` and `main.main`, the per-task enrichment
step, user resolution, and `calculate_time_estimates`.

Conventions of the embedding:
* ClickUp millisecond-epoch timestamps are `Option Nat`: `none` covers an
  absent key and the values on which `timestamp_to_datetime` returns
  `None` (falsy or unparsable input).
* `time_estimate` is `Option Int` (`None` or a missing key is `none`).
* Python float division and `round(x, 2)` are modelled by exact rationals
  with round-half-to-even, Python's rounding mode; the values the claims
  probe are exactly representable in binary floating point, where the two
  semantics coincide.
* A UTC calendar date is represented by its epoch-day number
  (`ms / 86400000` for a nonnegative millisecond timestamp), which
  determines the `str(datetime.date())` bucket key uniquely.
* The remote service is modelled as explicit response maps (page index ↦
  page outcome, task id ↦ comments/time outcome); a network loop becomes a
  function of that map with an explicit iteration bound.
-/

namespace ClickUp

/-- Task status, the `status` sub-object of a ClickUp task: `type` is the
status category (`"open"`, `"closed"`, ...), `status` the display label. -/
structure TaskStatus where
  type : String
  status : String
  deriving Repr, DecidableEq

/-- The fields of a fetched task record that the analysis engine reads. -/
structure Task where
  id : String
  name : String
  status : TaskStatus
  time_estimate : Option Int
  date_done : Option Nat
  date_closed : Option Nat
  date_updated : Option Nat
  deriving Repr, DecidableEq

/-- `date_done or date_closed or date_updated` in
`calculate_time_estimates` (src/user_task_analyzer.py line 243): the first
present timestamp in priority order; each disjunct is
`timestamp_to_datetime` of the field, and a present datetime is always
truthy in Python. -/
def taskDate (t : Task) : Option Nat :=
  (t.date_done.orElse fun _ => t.date_closed.orElse fun _ => t.date_updated)

/-- `datetime.date()` of a millisecond UTC timestamp, as an epoch-day
number (line 247 converts the bucket datetime to a date-only key). -/
def msToDay (ms : Nat) : Nat :=
  ms / 86400000

/-- Python `round` to the nearest integer with ties to even (banker's
rounding), on an exact rational. -/
def pyRound (q : ℚ) : ℤ :=
  let f := ⌊q⌋
  let r := q - (f : ℚ)
  if r < 1/2 then f
  else if 1/2 < r then f + 1
  else if f % 2 = 0 then f else f + 1

/-- Python `round(x, 2)`. -/
def round2 (q : ℚ) : ℚ :=
  (pyRound (q * 100) : ℚ) / 100

/-- The running state of the `for task in tasks` loop of
`calculate_time_estimates` (lines 225–228): the insertion-ordered
`daily_estimates` table (epoch day ↦ accumulated milliseconds) and the
running totals and counters. -/
structure AggState where
  daily_estimates : List (Nat × Int)
  total_estimate : Int
  tasks_with_estimates : Nat
  tasks_without_estimates : Nat
  deriving Repr, DecidableEq

/-- The loop state before the first task. -/
def AggState.init : AggState :=
  ⟨[], 0, 0, 0⟩

/-- `daily_estimates[key] += v` on the insertion-ordered table
(`defaultdict(int)` semantics): bump an existing key in place, else append
the new key at the end. -/
def bumpKey (k : Nat) (v : Int) : List (Nat × Int) → List (Nat × Int)
  | [] => [(k, v)]
  | (k₁, v₁) :: rest =>
    if k₁ = k then (k₁, v₁ + v) :: rest else (k₁, v₁) :: bumpKey k v rest

/-- One iteration of the `for task in tasks` loop of
`calculate_time_estimates` (lines 230–250). The guard is Python's
`if time_estimate and time_estimate > 0` (truthy and positive). -/
def stepTask (st : AggState) (t : Task) : AggState :=
  match t.time_estimate with
  | some te =>
    if te ≠ 0 ∧ 0 < te then
      let st₁ : AggState :=
        { st with
          tasks_with_estimates := st.tasks_with_estimates + 1
          total_estimate := st.total_estimate + te }
      match taskDate t with
      | some ms =>
        { st₁ with daily_estimates := bumpKey (msToDay ms) te st₁.daily_estimates }
      | none => st₁
    else { st with tasks_without_estimates := st.tasks_without_estimates + 1 }
  | none => { st with tasks_without_estimates := st.tasks_without_estimates + 1 }

/-- The dictionary `calculate_time_estimates` returns (lines 260–267);
`daily_breakdown` keeps the `daily_estimates` key order. -/
structure TimeEstimateResult where
  total_estimate_ms : Int
  total_estimate_hours : ℚ
  daily_breakdown : List (Nat × ℚ)
  tasks_with_estimates : Nat
  tasks_without_estimates : Nat
  total_tasks : Nat
  deriving Repr, DecidableEq

/-- `UserTaskAnalyzer.calculate_time_estimates` (lines 217–267): fold the
per-task loop over the list, then convert the millisecond sums to hours
(`ms / (1000 * 60 * 60)`, rounded to 2 decimal places). -/
def calculate_time_estimates (tasks : List Task) : TimeEstimateResult :=
  let st := tasks.foldl stepTask AggState.init
  { total_estimate_ms := st.total_estimate
    total_estimate_hours := round2 ((st.total_estimate : ℚ) / 3600000)
    daily_breakdown := st.daily_estimates.map fun p => (p.1, round2 ((p.2 : ℚ) / 3600000))
    tasks_with_estimates := st.tasks_with_estimates
    tasks_without_estimates := st.tasks_without_estimates
    total_tasks := tasks.length }

/-- One page of the `GET /team/{id}/task` response body: the `tasks` array
and the optional `last_page` flag (`none` = key absent, read back with
Python default `True`). -/
structure PageResponse where
  tasks : List Task
  last_page : Option Bool
  deriving Repr, DecidableEq

/-- The outcome of one page request in `get_user_tasks`: `_make_request`
may raise (`err`) or deliver a response body. -/
inductive PageResult where
  | err
  | ok (resp : PageResponse)
  deriving Repr, DecidableEq

/-- Python `str.lower()`, character-wise over the string's characters,
restricted to ASCII case folding (every string the program case-folds —
status labels, filter entries, usernames, emails — is ASCII here);
written out so that concrete instances compute. -/
def lowerChar (c : Char) : Char :=
  if 65 ≤ c.toNat ∧ c.toNat ≤ 90 then Char.ofNat (c.toNat + 32) else c

/-- Python `s.lower()` for strings. -/
def strLower (s : String) : String :=
  String.mk (s.data.map lowerChar)

/-- The status-filter block of `get_user_tasks`
(src/user_task_analyzer.py lines 158–172). The CLI filter is a single
string: a falsy filter (`None` or `""`) keeps every task;
`"completed"`/`"done"`/`"closed"` keep tasks whose status category is
`"closed"` or whose lower-cased label is one of
`"complete"/"completed"/"done"/"closed"`; `"open"` keeps open-category
tasks; any other truthy string appends nothing, keeping no task. -/
def filterByStatus (status_filter : Option String) (tasks : List Task) : List Task :=
  match status_filter with
  | none => tasks
  | some sf =>
    if sf = "" then tasks
    else if sf = "completed" ∨ sf = "done" ∨ sf = "closed" then
      tasks.filter fun t =>
        t.status.type == "closed" ||
          ["complete", "completed", "done", "closed"].contains (strLower t.status.status)
    else if sf = "open" then
      tasks.filter fun t => t.status.type == "open"
    else []

/-- The `while True` pagination loop of `UserTaskAnalyzer.get_user_tasks`
(src/user_task_analyzer.py lines 141–185), over the page-indexed response
map: an empty page breaks before filtering, a raising page request breaks
keeping the accumulated tasks, `last_page` defaults to `True` when the key
is absent. `fuel` is an explicit iteration bound; `none` means the bound
ran out before the loop's own exit conditions fired. -/
def get_user_tasks_loop (pages : Nat → PageResult) (status_filter : Option String) :
    Nat → Nat → List Task → Option (List Task)
  | 0, _, _ => none
  | fuel + 1, page, acc =>
    match pages page with
    | .err => some acc
    | .ok resp =>
      if resp.tasks = [] then some acc
      else
        let acc₁ := acc ++ filterByStatus status_filter resp.tasks
        if resp.last_page.getD true then some acc₁
        else get_user_tasks_loop pages status_filter fuel (page + 1) acc₁

/-- The per-task predicate of the status-filter block of `main.main`
(src/main.py line 95): keep a task when its status category is `"closed"`
or its lower-cased label appears among the lower-cased filter entries. -/
def keepTask (statusFilter : List String) (t : Task) : Bool :=
  t.status.type == "closed" ||
    (statusFilter.map strLower).contains (strLower t.status.status)

/-- The whole per-page filtering block of `main.main` (src/main.py lines
88–98): filtering applies only when `STATUS_FILTER` is truthy (non-empty)
and not `["all"]`. -/
def main_filter_step (statusFilter : List String) (tasks : List Task) : List Task :=
  if statusFilter ≠ [] ∧ statusFilter ≠ ["all"] then
    tasks.filter (keepTask statusFilter)
  else tasks

/-- The `while True` pagination loop of `main.main` (src/main.py lines
71–104): same page/stop structure as `get_user_tasks`, with the list-typed
status filter and no `try/except` around the page request (the response
map is total here, an exception would abort `main` wholesale). -/
def main_fetch_loop (pages : Nat → PageResponse) (statusFilter : List String) :
    Nat → Nat → List Task → Option (List Task)
  | 0, _, _ => none
  | fuel + 1, page, acc =>
    if (pages page).tasks = [] then some acc
    else
      let acc₁ := acc ++ main_filter_step statusFilter (pages page).tasks
      if (pages page).last_page.getD true then some acc₁
      else main_fetch_loop pages statusFilter fuel (page + 1) acc₁

/-- A comment record, as returned by `GET /task/{id}/comment`. -/
structure Comment where
  user : String
  comment_text : String
  deriving Repr, DecidableEq

/-- A time-tracking entry from the `data` array of `GET /task/{id}/time`. -/
structure TimeEntry where
  duration : Int
  deriving Repr, DecidableEq

/-- The remote side of the enrichment phase: for each task id, the outcome
of the comments request and of the time-entries request (`Except.error`
models a raised request exception). -/
structure EnrichEnv where
  commentsReq : String → Except String (List Comment)
  timeReq : String → Except String (List TimeEntry)

/-- `UserTaskAnalyzer.get_task_comments` (lines 103–110): the `comments`
field of the response, or `[]` when the request raises (the exception is
caught and logged). -/
def get_task_comments (env : EnrichEnv) (task_id : String) : List Comment :=
  match env.commentsReq task_id with
  | .ok comments => comments
  | .error _ => []

/-- `UserTaskAnalyzer.get_task_time_tracking` (lines 112–119) combined
with the caller's `.get("data", [])` (line 209): the `data` array of the
response, or `[]` when the request raises (the handler substitutes
`{"data": []}`). -/
def get_task_time_tracking (env : EnrichEnv) (task_id : String) : List TimeEntry :=
  match env.timeReq task_id with
  | .ok entries => entries
  | .error _ => []

/-- A task after the enrichment loop attached `comments`, `comment_count`
and `time_entries` (lines 199–209). -/
structure EnrichedTask where
  task : Task
  comments : List Comment
  comment_count : Nat
  time_entries : List TimeEntry
  deriving Repr, DecidableEq

/-- The body of the enrichment loop of `get_user_tasks` (lines 192–209)
for one task; the `time.sleep` rate-limit pauses carry no data and are
dropped. -/
def enrichTask (env : EnrichEnv) (t : Task) : EnrichedTask :=
  let comments := get_task_comments env t.id
  { task := t
    comments := comments
    comment_count := comments.length
    time_entries := get_task_time_tracking env t.id }

/-- The whole enrichment loop of `get_user_tasks` (lines 187–213): every
task is enriched in order, and the loop itself never raises. -/
def enrichTasks (env : EnrichEnv) (tasks : List Task) : List EnrichedTask :=
  tasks.map (enrichTask env)

/-- A workspace member's user record, the fields
`find_user_by_partial_name` reads. -/
structure RemoteUser where
  id : String
  username : String
  email : String
  deriving Repr, DecidableEq

/-- One entry of the team roster (`team.members`), wrapping its `user`. -/
structure Member where
  user : RemoteUser
  deriving Repr, DecidableEq

/-- Whether `needle` starts `hay`, on character lists. -/
def charsStartWith : List Char → List Char → Bool
  | [], _ => true
  | _ :: _, [] => false
  | a :: as, b :: bs => a == b && charsStartWith as bs

/-- Python `needle in hay` on strings: substring containment, checked at
every suffix of `hay` (the empty needle is contained everywhere). -/
def charsContain (needle : List Char) : List Char → Bool
  | [] => charsStartWith needle []
  | c :: rest => charsStartWith needle (c :: rest) || charsContain needle rest

/-- Python `needle in hay` for strings. -/
def strIn (needle hay : String) : Bool :=
  charsContain needle.toList hay.toList

/-- The `matched_users` list of `find_user_by_partial_name`
(src/user_task_analyzer.py lines 63–73): the members whose username or
email contains the lower-cased query, case-insensitively, in roster
order. -/
def matched_users (partial_name : String) (members : List Member) : List RemoteUser :=
  let partial_lower := strLower partial_name
  (members.map Member.user).filter fun u =>
    strIn partial_lower (strLower u.username) || strIn partial_lower (strLower u.email)

/-- `UserTaskAnalyzer.find_user_by_partial_name` (lines 50–87), given the
fetched team roster. `none` models the `UserNotFoundError` outcome: the
Python function returns `None` and every caller treats that as a fatal
lookup failure; with several matches it warns and returns the first. -/
def find_user_by_partial_name (partial_name : String) (members : List Member) :
    Option RemoteUser :=
  (matched_users partial_name members).head?

/-! ## Theorems -/

theorem stepTask_counters (st : AggState) (t : Task) :
    (stepTask st t).tasks_with_estimates + (stepTask st t).tasks_without_estimates
      = st.tasks_with_estimates + st.tasks_without_estimates + 1 := by
  rcases h : t.time_estimate with _ | te
  · simp [stepTask, h]
    omega
  · simp only [stepTask, h]
    split
    · rcases taskDate t with _ | ms <;> simp <;> omega
    · simp
      omega

theorem foldl_stepTask_counters (tasks : List Task) (st : AggState) :
    (tasks.foldl stepTask st).tasks_with_estimates
        + (tasks.foldl stepTask st).tasks_without_estimates
      = st.tasks_with_estimates + st.tasks_without_estimates + tasks.length := by
  induction tasks generalizing st with
  | nil => simp
  | cons t rest ih =>
    simp only [List.foldl_cons, List.length_cons]
    rw [ih (stepTask st t), stepTask_counters]
    omega

/-- C1: for every input task list, the result of `calculate_time_estimates`
satisfies `tasks_with_estimates + tasks_without_estimates = total_tasks`,
where `total_tasks` is the length of the input list — each task increments
exactly one of the two counters. -/
theorem calculate_time_estimates_counter_invariant (tasks : List Task) :
    (calculate_time_estimates tasks).tasks_with_estimates
        + (calculate_time_estimates tasks).tasks_without_estimates
      = (calculate_time_estimates tasks).total_tasks := by
  unfold calculate_time_estimates
  simpa [AggState.init] using foldl_stepTask_counters tasks AggState.init

/-- C4: a task whose `time_estimate` is absent, zero or negative is counted
in `tasks_without_estimates` and leaves the daily table and the total
untouched (the loop step only bumps that one counter); aggregating the
empty task list yields all-zero totals and an empty `daily_breakdown`. -/
theorem no_estimate_task_counted_without (st : AggState) (t : Task)
    (h : t.time_estimate = none ∨ ∃ e, t.time_estimate = some e ∧ e ≤ 0) :
    stepTask st t
        = { st with tasks_without_estimates := st.tasks_without_estimates + 1 }
      ∧ calculate_time_estimates [] =
          { total_estimate_ms := 0
            total_estimate_hours := 0
            daily_breakdown := []
            tasks_with_estimates := 0
            tasks_without_estimates := 0
            total_tasks := 0 } := by
  constructor
  · unfold stepTask
    rcases h with h | ⟨e, he, hle⟩
    · simp [h]
    · have : ¬ (e ≠ 0 ∧ 0 < e) := by omega
      simp [he, this]
  · show TimeEstimateResult.mk _ _ _ _ _ _ = _
    simp [calculate_time_estimates, AggState.init]
    norm_num [round2, pyRound]

/-- Witness for C4 at a concrete zero-estimate task. -/
theorem no_estimate_task_counted_without_witness :
    stepTask AggState.init ⟨"t1", "task", ⟨"open", "open"⟩, some 0, none, none, none⟩
      = { AggState.init with tasks_without_estimates := 1 } :=
  (no_estimate_task_counted_without AggState.init
    ⟨"t1", "task", ⟨"open", "open"⟩, some 0, none, none, none⟩
    (Or.inr ⟨0, rfl, le_refl 0⟩)).1

/-- C3: for a task with a positive `time_estimate`, the loop step of
`calculate_time_estimates` bumps the daily bucket of the first non-absent
date in priority order `date_done`, `date_closed`, `date_updated` (and the
totals regardless); with all three absent nothing is bucketed; and the
spec's concrete task (`date_done` absent, `date_closed = 1700000000000`,
`date_updated = 1690000000000`) lands in the bucket of `date_closed`
(epoch day 19675, i.e. 2023-11-14). -/
theorem bucket_date_priority (st : AggState) (t : Task) (e : Int)
    (hte : t.time_estimate = some e) (hpos : 0 < e) :
    ((stepTask st t).daily_estimates =
        match taskDate t with
        | some ms => bumpKey (msToDay ms) e st.daily_estimates
        | none => st.daily_estimates)
      ∧ (stepTask st t).total_estimate = st.total_estimate + e
      ∧ taskDate t =
          (match t.date_done with
           | some d => some d
           | none =>
             match t.date_closed with
             | some d => some d
             | none => t.date_updated)
      ∧ (calculate_time_estimates
            [⟨"t", "task", ⟨"closed", "done"⟩, some 3600000, none,
              some 1700000000000, some 1690000000000⟩]).daily_breakdown
          = [(19675, 1)] := by
  have hguard : e ≠ 0 ∧ 0 < e := ⟨by omega, hpos⟩
  refine ⟨?_, ?_, ?_, ?_⟩
  · simp only [stepTask, hte, if_pos hguard]
    rcases taskDate t with _ | ms <;> simp
  · simp only [stepTask, hte, if_pos hguard]
    rcases taskDate t with _ | ms <;> simp
  · simp only [taskDate]
    rcases t.date_done with _ | d
    · rcases t.date_closed with _ | d <;> simp [Option.orElse]
    · simp [Option.orElse]
  · norm_num [calculate_time_estimates, stepTask, taskDate, AggState.init, msToDay,
      bumpKey, round2, pyRound]

/-- Witness for C3 at the spec's concrete task. -/
theorem bucket_date_priority_witness :
    (stepTask AggState.init
        ⟨"t", "task", ⟨"closed", "done"⟩, some 3600000, none,
          some 1700000000000, some 1690000000000⟩).daily_estimates
      = bumpKey 19675 3600000 AggState.init.daily_estimates := by
  have h := (bucket_date_priority AggState.init
    ⟨"t", "task", ⟨"closed", "done"⟩, some 3600000, none,
      some 1700000000000, some 1690000000000⟩ 3600000 rfl (by decide)).1
  simpa [taskDate, msToDay, Option.orElse] using h

/-- C9: millisecond sums become hours by dividing by 3,600,000 and rounding
to 2 decimal places, for each `daily_breakdown` value and for
`total_estimate_hours`; the total is computed from the raw millisecond sum
`total_estimate_ms`, not from the rounded daily values. A single task with
`time_estimate = 3600000` yields exactly 1.0 hour, and one with `5400000`
yields 1.5 hours, in both the total and its daily bucket. -/
theorem ms_to_hours_conversion (tasks : List Task) :
    (calculate_time_estimates tasks).total_estimate_hours
        = round2 (((calculate_time_estimates tasks).total_estimate_ms : ℚ) / 3600000)
      ∧ (calculate_time_estimates tasks).daily_breakdown
          = (tasks.foldl stepTask AggState.init).daily_estimates.map
              (fun p => (p.1, round2 ((p.2 : ℚ) / 3600000)))
      ∧ (calculate_time_estimates
            [⟨"t", "task", ⟨"closed", "done"⟩, some 3600000, some 1700000000000,
              none, none⟩]).total_estimate_hours = 1
      ∧ (calculate_time_estimates
            [⟨"t", "task", ⟨"closed", "done"⟩, some 3600000, some 1700000000000,
              none, none⟩]).daily_breakdown = [(19675, 1)]
      ∧ (calculate_time_estimates
            [⟨"t", "task", ⟨"closed", "done"⟩, some 5400000, some 1700000000000,
              none, none⟩]).total_estimate_hours = 3/2
      ∧ (calculate_time_estimates
            [⟨"t", "task", ⟨"closed", "done"⟩, some 5400000, some 1700000000000,
              none, none⟩]).daily_breakdown = [(19675, 3/2)] := by
  refine ⟨rfl, rfl, ?_, ?_, ?_, ?_⟩ <;>
    norm_num [calculate_time_estimates, stepTask, taskDate, AggState.init, msToDay,
      bumpKey, round2, pyRound]

theorem get_user_tasks_loop_drain (pages : Nat → PageResult) (sf : Option String)
    (k fuel : Nat) (ts : Nat → List Task) (p0 : Nat) (acc : List Task)
    (h : ∀ j, j < k → pages (p0 + j) = .ok ⟨ts j, some false⟩ ∧ ts j ≠ []) :
    get_user_tasks_loop pages sf (k + fuel + 1) p0 acc
      = get_user_tasks_loop pages sf (fuel + 1) (p0 + k)
          (acc ++ ((List.range k).map fun j => filterByStatus sf (ts j)).flatten) := by
  induction k generalizing ts p0 acc with
  | zero => simp
  | succ k ih =>
    have h0 := h 0 (Nat.succ_pos k)
    have harith : k + 1 + fuel + 1 = k + (fuel + 1) + 1 := by omega
    rw [harith]
    show get_user_tasks_loop pages sf (k + (fuel + 1) + 1) p0 acc = _
    rw [get_user_tasks_loop]
    rw [show p0 + 0 = p0 from rfl] at h0
    rw [h0.1]
    simp only [h0.2, if_neg, Option.getD_some, Bool.false_eq_true, if_false]
    have ih' := ih (fun j => ts (j + 1)) (p0 + 1) (acc ++ filterByStatus sf (ts 0))
      (fun j hj => by
        have := h (j + 1) (by omega)
        constructor
        · rw [show p0 + 1 + j = p0 + (j + 1) from by omega]
          exact this.1
        · exact this.2)
    rw [show k + (fuel + 1) = k + fuel + 1 from by omega]
    rw [ih']
    congr 1
    · omega
    · rw [List.range_succ_eq_map]
      simp [List.append_assoc, Function.comp]
      rfl

/-- C5: if pages `0..k-1` are non-empty continue pages and page `k` comes
back with an empty `tasks` array, the pagination loop of `get_user_tasks`
terminates at page `k` and returns the tasks accumulated from the earlier
pages, whatever page `k`'s `last_page` field says; it also stops at a page
that signals `last_page`, keeping that page's filtered tasks. The fuel
bound `k + 1` shows the loop finishes within `k + 1` iterations. -/
theorem pagination_stops_on_empty_or_last (pages : Nat → PageResult)
    (sf : Option String) (k : Nat) (ts : Nat → List Task)
    (hcont : ∀ j, j < k → pages j = .ok ⟨ts j, some false⟩ ∧ ts j ≠ []) :
    (∀ lp, pages k = .ok ⟨[], lp⟩ →
        get_user_tasks_loop pages sf (k + 1) 0 []
          = some ((List.range k).map fun j => filterByStatus sf (ts j)).flatten)
      ∧ (∀ tsk, pages k = .ok ⟨tsk, some true⟩ → tsk ≠ [] →
          get_user_tasks_loop pages sf (k + 1) 0 []
            = some (((List.range k).map fun j => filterByStatus sf (ts j)).flatten
                ++ filterByStatus sf tsk)) := by
  have hdrain := get_user_tasks_loop_drain pages sf k 0 ts 0 []
    (fun j hj => by simpa using hcont j hj)
  simp only [Nat.add_zero, Nat.zero_add, List.nil_append] at hdrain
  constructor
  · intro lp hk
    rw [hdrain, get_user_tasks_loop, hk]
    simp
  · intro tsk hk hne
    rw [hdrain, get_user_tasks_loop, hk]
    simp [hne]

/-- A concrete task record used by the loop witnesses. -/
def taskA : Task :=
  ⟨"a", "A", ⟨"closed", "done"⟩, some 3600000, none, none, none⟩

/-- A second concrete task record used by the loop witnesses. -/
def taskB : Task :=
  ⟨"b", "B", ⟨"open", "open"⟩, none, none, none, none⟩

/-- A remote with one non-empty page, then an empty page whose `last_page`
key is absent. -/
def pagesEmptySecond : Nat → PageResult := fun n =>
  if n = 0 then .ok ⟨[taskA], some false⟩
  else if n = 1 then .ok ⟨[], none⟩
  else .err

/-- Witness for C5: the loop stops at the empty second page and returns
the first page's tasks. -/
theorem pagination_stops_on_empty_or_last_witness :
    get_user_tasks_loop pagesEmptySecond none 2 0 [] = some [taskA] := by
  have h := (pagination_stops_on_empty_or_last pagesEmptySecond none 1
    (fun _ => [taskA]) (by decide)).1 none (by decide)
  simpa [filterByStatus] using h

/-- C6: if pages `0..k-1` are non-empty continue pages and the request for
page `k` raises, the pagination loop of `get_user_tasks` does not
propagate the error: it stops at page `k` (the fuel bound `k + 1` shows it
finishes there) and returns exactly the tasks accumulated from the earlier
pages, covering `k = 0` (an error on the first page returns `[]`). The
result is an ordinary `some`, never an exceptional outcome. -/
theorem page_error_keeps_partial_results (pages : Nat → PageResult)
    (sf : Option String) (k : Nat) (ts : Nat → List Task)
    (hcont : ∀ j, j < k → pages j = .ok ⟨ts j, some false⟩ ∧ ts j ≠ [])
    (hk : pages k = .err) :
    get_user_tasks_loop pages sf (k + 1) 0 []
      = some ((List.range k).map fun j => filterByStatus sf (ts j)).flatten := by
  have hdrain := get_user_tasks_loop_drain pages sf k 0 ts 0 []
    (fun j hj => by simpa using hcont j hj)
  simp only [Nat.add_zero, Nat.zero_add, List.nil_append] at hdrain
  rw [hdrain, get_user_tasks_loop, hk]

/-- A remote whose every page request raises. -/
def pagesAllErr : Nat → PageResult := fun _ => .err

/-- Witness for C6: an error on the very first page yields the empty
accumulated result rather than a propagated failure. -/
theorem page_error_keeps_partial_results_witness :
    get_user_tasks_loop pagesAllErr (some "completed") 1 0 [] = some [] := by
  have h := page_error_keeps_partial_results pagesAllErr (some "completed") 0
    (fun _ => []) (by omega) rfl
  simpa using h

/-- C10: a page whose response has a non-empty `tasks` array but no
`last_page` key at all is treated as the last page
(`response.get("last_page", True)` defaults to `True`): the loop
accumulates that page's filtered tasks and stops. The fuel bound `k + 1`
shows no further page is requested, and the hypotheses constrain `pages`
only up to index `k`, so any later page is irrelevant to the result. -/
theorem missing_last_page_stops_pagination (pages : Nat → PageResult)
    (sf : Option String) (k : Nat) (ts : Nat → List Task) (tsk : List Task)
    (hcont : ∀ j, j < k → pages j = .ok ⟨ts j, some false⟩ ∧ ts j ≠ [])
    (hk : pages k = .ok ⟨tsk, none⟩) (hne : tsk ≠ []) :
    get_user_tasks_loop pages sf (k + 1) 0 []
      = some (((List.range k).map fun j => filterByStatus sf (ts j)).flatten
          ++ filterByStatus sf tsk) := by
  have hdrain := get_user_tasks_loop_drain pages sf k 0 ts 0 []
    (fun j hj => by simpa using hcont j hj)
  simp only [Nat.add_zero, Nat.zero_add, List.nil_append] at hdrain
  rw [hdrain, get_user_tasks_loop, hk]
  simp [hne]

/-- A remote whose first page has tasks but no `last_page` key. -/
def pagesNoLastPage : Nat → PageResult := fun n =>
  if n = 0 then .ok ⟨[taskA, taskB], none⟩ else .err

/-- Witness for C10: the first page's tasks are kept and the loop stops
there. -/
theorem missing_last_page_stops_pagination_witness :
    get_user_tasks_loop pagesNoLastPage none 1 0 [] = some [taskA, taskB] := by
  have h := missing_last_page_stops_pagination pagesNoLastPage none 0
    (fun _ => []) [taskA, taskB] (by omega) rfl (by decide)
  simpa [filterByStatus] using h

theorem main_filter_step_mem (sf : List String) (hne : sf ≠ [])
    (hall : sf ≠ ["all"]) (tasks : List Task) (t : Task) :
    t ∈ main_filter_step sf tasks ↔
      t ∈ tasks ∧ (t.status.type = "closed"
        ∨ strLower t.status.status ∈ sf.map strLower) := by
  unfold main_filter_step
  rw [if_pos ⟨hne, hall⟩]
  simp [List.mem_filter, keepTask, List.elem_iff]

/-- C2: with a status filter that is non-empty and not `["all"]`, the
per-page filter of `main.main` keeps a fetched task if and only if its
status category is `"closed"` or its case-folded label appears in the
case-folded filter set; every task the pagination loop accumulates (from
any page) satisfies that condition; and a filter of `["completed"]` keeps
a task with `status.type = "closed"`, `status.status = "in review"`. -/
theorem status_filter_keeps_closed_or_listed (sf : List String)
    (hne : sf ≠ []) (hall : sf ≠ ["all"]) :
    (∀ tasks t, t ∈ main_filter_step sf tasks ↔
        t ∈ tasks ∧ (t.status.type = "closed"
          ∨ strLower t.status.status ∈ sf.map strLower))
      ∧ (∀ pages fuel page acc res t,
          main_fetch_loop pages sf fuel page acc = some res → t ∈ res →
            t ∈ acc ∨ t.status.type = "closed"
              ∨ strLower t.status.status ∈ sf.map strLower)
      ∧ (∀ t, t.status = ⟨"closed", "in review"⟩ →
          main_filter_step ["completed"] [t] = [t]) := by
  refine ⟨main_filter_step_mem sf hne hall, ?_, ?_⟩
  · intro pages fuel
    induction fuel with
    | zero =>
      intro page acc res t h
      simp [main_fetch_loop] at h
    | succ fuel ih =>
      intro page acc res t h hmem
      rw [main_fetch_loop] at h
      by_cases he : (pages page).tasks = []
      · rw [if_pos he] at h
        cases h
        exact Or.inl hmem
      · rw [if_neg he] at h
        by_cases hl : (pages page).last_page.getD true = true
        · rw [if_pos hl] at h
          cases h
          rcases List.mem_append.mp hmem with hm | hm
          · exact Or.inl hm
          · exact Or.inr ((main_filter_step_mem sf hne hall _ t).mp hm).2
        · rw [if_neg hl] at h
          rcases ih (page + 1) _ res t h hmem with hm | hm
          · rcases List.mem_append.mp hm with hm' | hm'
            · exact Or.inl hm'
            · exact Or.inr ((main_filter_step_mem sf hne hall _ t).mp hm').2
          · exact Or.inr hm
  · intro t hst
    have : keepTask ["completed"] t = true := by
      simp [keepTask, hst]
    simp [main_filter_step, List.filter, this]

/-- A closed-category task whose label is not in any filter set. -/
def taskClosedInReview : Task :=
  ⟨"c", "C", ⟨"closed", "in review"⟩, none, none, none, none⟩

/-- Witness for C2: the spec's concrete closed-type override. -/
theorem status_filter_keeps_closed_or_listed_witness :
    main_filter_step ["completed"] [taskClosedInReview] = [taskClosedInReview] :=
  (status_filter_keeps_closed_or_listed ["completed"] (by decide) (by decide)).2.2
    taskClosedInReview rfl

/-- C7: a failing comments request leaves the enriched task with
`comments = []` and `comment_count = 0`; a failing time-entries request
leaves `time_entries = []`; one task's enrichment depends only on the
remote's answers for that task's id, so a failure on one task cannot
change any other; and the enrichment loop is the total map of the per-task
step over the list, so it never aborts. -/
theorem enrichment_failure_isolated (env : EnrichEnv) (t : Task) :
    (∀ msg, env.commentsReq t.id = .error msg →
        (enrichTask env t).comments = [] ∧ (enrichTask env t).comment_count = 0)
      ∧ (∀ msg, env.timeReq t.id = .error msg → (enrichTask env t).time_entries = [])
      ∧ (∀ env₁ : EnrichEnv, env₁.commentsReq t.id = env.commentsReq t.id →
          env₁.timeReq t.id = env.timeReq t.id → enrichTask env₁ t = enrichTask env t)
      ∧ (∀ tasks : List Task, enrichTasks env tasks = tasks.map (enrichTask env)) := by
  refine ⟨?_, ?_, ?_, fun _ => rfl⟩
  · intro msg hmsg
    simp [enrichTask, get_task_comments, hmsg]
  · intro msg hmsg
    simp [enrichTask, get_task_time_tracking, hmsg]
  · intro env₁ hc ht
    simp [enrichTask, get_task_comments, get_task_time_tracking, hc, ht]

/-- A remote that fails both enrichment requests for task id `"a"` and
answers normally for every other id. -/
def envFailA : EnrichEnv :=
  ⟨fun tid => if tid = "a" then .error "boom" else .ok [⟨"u", "hi"⟩],
   fun tid => if tid = "a" then .error "boom" else .ok [⟨60000⟩]⟩

/-- Witness for C7: task `"a"` degrades to empty enrichment fields while
its sibling task `"b"` is fully enriched. -/
theorem enrichment_failure_isolated_witness :
    (enrichTask envFailA taskA).comments = []
      ∧ (enrichTask envFailA taskA).comment_count = 0
      ∧ (enrichTask envFailA taskA).time_entries = []
      ∧ enrichTasks envFailA [taskA, taskB]
          = [enrichTask envFailA taskA, enrichTask envFailA taskB]
      ∧ (enrichTask envFailA taskB).comments = [⟨"u", "hi"⟩] :=
  ⟨((enrichment_failure_isolated envFailA taskA).1 "boom" rfl).1,
   ((enrichment_failure_isolated envFailA taskA).1 "boom" rfl).2,
   (enrichment_failure_isolated envFailA taskA).2.1 "boom" rfl,
   (enrichment_failure_isolated envFailA taskA).2.2.2 [taskA, taskB],
   rfl⟩

/-- C8: user resolution over the fetched roster fails (returns the `None`
that callers treat as the `UserNotFoundError` outcome) exactly when no
member's username or email contains the case-folded query; and whenever at
least one member matches — in particular when several do — it returns the
first match in roster order without failing. -/
theorem find_user_resolution_policy (partial_name : String) (members : List Member) :
    (matched_users partial_name members = [] ↔
        ∀ m ∈ members,
          (strIn (strLower partial_name) (strLower m.user.username)
            || strIn (strLower partial_name) (strLower m.user.email)) = false)
      ∧ (matched_users partial_name members = [] →
          find_user_by_partial_name partial_name members = none)
      ∧ (∀ u rest, matched_users partial_name members = u :: rest →
          find_user_by_partial_name partial_name members = some u) := by
  refine ⟨?_, ?_, ?_⟩
  · unfold matched_users
    rw [List.filter_eq_nil_iff]
    constructor
    · intro h m hm
      have := h m.user (List.mem_map_of_mem Member.user hm)
      simpa using this
    · intro h u hu
      rcases List.mem_map.mp hu with ⟨m, hm, rfl⟩
      simpa using h m hm
  · intro h
    simp [find_user_by_partial_name, h]
  · intro u rest h
    simp [find_user_by_partial_name, h]

/-- A roster with two members matching `"ali"` and none matching `"zz"`. -/
def rosterTwoAlice : List Member :=
  [⟨⟨"1", "Alice", "alice@x.com"⟩⟩, ⟨⟨"2", "Alicia", "alicia@x.com"⟩⟩]

/-- Witness for C8: zero matches fail with `none`; two matches resolve to
the first in roster order. -/
theorem find_user_resolution_policy_witness :
    find_user_by_partial_name "zz" rosterTwoAlice = none
      ∧ find_user_by_partial_name "ali" rosterTwoAlice
          = some ⟨"1", "Alice", "alice@x.com"⟩ :=
  ⟨(find_user_resolution_policy "zz" rosterTwoAlice).2.1 (by decide),
   (find_user_resolution_policy "ali" rosterTwoAlice).2.2
     ⟨"1", "Alice", "alice@x.com"⟩ [⟨"2", "Alicia", "alicia@x.com"⟩] (by decide)⟩

end ClickUp
